import Mathlib

/-!
Shallow embedding of the synchronization engine of the jp-trip-planner
backend (syncService.ts: transformRowsToLocations, syncSheetToDb,
transformRowsToItinerary, syncItinerary, updateItineraryInSheet), together
with theorems settling the frozen claims about it.

Modelling conventions:
- Spreadsheet cells are strings; a missing cell (undefined in the source)
  is modelled as the empty string, which is interchangeable with undefined
  under every use the engine makes of a cell (truthiness tests and
  defaulting with the or-else operator).
- Numeric cells (lat and lng) are modelled as integers: the source parses
  them with parseFloat(x) combined with an or-else 0 default, and every
  verified property depends only on the parsed value being zero or
  non-zero and on values being passed through unchanged.  parseNum below
  parses an optional minus sign followed by a decimal digit run and
  yields 0 otherwise, mirroring the or-else 0 default.
- JavaScript string normalization (toLowerCase, trim), substring search
  (String.prototype.includes) and prefix test (startsWith) are modelled by
  executable list-of-character functions so that witnesses evaluate inside
  the kernel.
- The external world (wall clock and place-lookup collaborator) is an
  oracle: for loop iteration k it yields the result of the elapsed-budget
  test made at the top of that iteration and the lookup result (none for
  a lookup that returns nothing or throws).
- Side effects on the spreadsheet and the cache are reified as an ordered
  effect trace; applying the trace to a previous cache snapshot gives the
  snapshot afterwards.
-/

/-- Lowercases one character the way toLowerCase does on ASCII data. -/
def lowerChar (c : Char) : Char :=
  if c.toNat ≥ 65 && c.toNat ≤ 90 then Char.ofNat (c.toNat + 32) else c

/-- Whitespace test used by the trim model. -/
def isWsp (c : Char) : Bool := c == ' ' || c == '\t' || c == '\n' || c == '\r'

/-- Embedding of h.toLowerCase().trim() applied to a header cell. -/
def normCell (s : String) : String :=
  String.mk (((s.data.map lowerChar).dropWhile isWsp).reverse.dropWhile isWsp).reverse

/-- Decimal digit test. -/
def isDigitCh (c : Char) : Bool := 48 ≤ c.toNat && c.toNat ≤ 57

/-- Accumulates a digit run into a natural number. -/
def natOfDigits : List Char → Nat → Nat
  | [], acc => acc
  | c :: l, acc => natOfDigits l (acc * 10 + (c.toNat - 48))

/-- Embedding of parseFloat(cell) with the or-else 0 default: an optional
minus sign followed by a leading digit run; anything unparseable is 0. -/
def parseNum (s : String) : Int :=
  match s.data with
  | '-' :: rest =>
      let ds := rest.takeWhile isDigitCh
      if ds.isEmpty then 0 else -((natOfDigits ds 0 : Nat) : Int)
  | l =>
      let ds := l.takeWhile isDigitCh
      if ds.isEmpty then 0 else ((natOfDigits ds 0 : Nat) : Int)

/-- Character-list test used by the substring and startsWith models. -/
def leadMatch : List Char → List Char → Bool
  | [], _ => true
  | _ :: _, [] => false
  | p :: ps, c :: cs => p == c && leadMatch ps cs

/-- Substring search over a character list. -/
def hasSubAux (pat : List Char) : List Char → Bool
  | [] => leadMatch pat []
  | c :: cs => leadMatch pat (c :: cs) || hasSubAux pat cs

/-- Embedding of s.includes(pat). -/
def hasSub (s pat : String) : Bool := hasSubAux pat.data s.data

/-- Embedding of s.startsWith(pat). -/
def startsWithStr (s pat : String) : Bool := leadMatch pat.data s.data

/-- Embedding of the or-else defaulting idiom cell or default. -/
def orDefault (s d : String) : String := if s = "" then d else s

/-- Column map produced by the dynamic header mapping in syncSheetToDb:
one column index per semantic role, -1 when the alias is not found. -/
structure ColMap where
  name : Int
  city : Int
  type : Int
  price : Int
  desc : Int
  url : Int
  lat : Int
  lng : Int
  photo : Int
deriving DecidableEq

/-- First index of a value in a list, -1 when absent (Array.indexOf). -/
def idxOf (l : List String) (target : String) : Int :=
  match l with
  | [] => -1
  | h :: t =>
      if h = target then 0
      else
        let r := idxOf t target
        if r = -1 then -1 else r + 1

/-- The colMap literal of syncSheetToDb: headerRow.indexOf of each alias. -/
def mkColMap (hdr : List String) : ColMap where
  name := idxOf hdr "restaurant name"
  city := idxOf hdr "city"
  type := idxOf hdr "cuisine type"
  price := idxOf hdr "price (jpy)"
  desc := idxOf hdr "best for"
  url := idxOf hdr "google maps"
  lat := idxOf hdr "latitude"
  lng := idxOf hdr "longitude"
  photo := idxOf hdr "photo reference"

/-- Legacy fallback of syncSheetToDb: any role still -1 is assigned its
fixed legacy position 0..8. -/
def applyFallback (cm : ColMap) : ColMap where
  name := if cm.name = -1 then 0 else cm.name
  city := if cm.city = -1 then 1 else cm.city
  type := if cm.type = -1 then 2 else cm.type
  price := if cm.price = -1 then 3 else cm.price
  desc := if cm.desc = -1 then 4 else cm.desc
  url := if cm.url = -1 then 5 else cm.url
  lat := if cm.lat = -1 then 6 else cm.lat
  lng := if cm.lng = -1 then 7 else cm.lng
  photo := if cm.photo = -1 then 8 else cm.photo

/-- Canonical in-memory record of one Locations row (the Location shape
built by transformRowsToLocations). -/
structure Location where
  id : String
  name : String
  city : String
  type : String
  priceJpy : String
  priceThb : String
  description : String
  googleMapsUrl : String
  lat : Int
  lng : Int
  photoUrl : Option String
deriving DecidableEq

/-- Default Location used only to make list indexing total in statements. -/
def dfltLoc : Location where
  id := ""
  name := ""
  city := ""
  type := ""
  priceJpy := ""
  priceThb := ""
  description := ""
  googleMapsUrl := ""
  lat := 0
  lng := 0
  photoUrl := none

/-- Embedding of the getVal helper: row[idx] when idx is non-negative and
in range, the empty string otherwise. -/
def getVal (row : List String) (idx : Int) : String :=
  if idx ≥ 0 then row.getD idx.toNat "" else ""

/-- Embedding of GeocodingService.getPhotoUrl, with the configured Maps
key passed explicitly; an empty reference or key yields the empty
string, as in the source. -/
def getPhotoUrl (key photoRef : String) : String :=
  if photoRef = "" ∨ key = "" then ""
  else
    "https://maps.googleapis.com/maps/api/place/photo?maxwidth=800&photo_reference="
      ++ photoRef ++ "&key=" ++ key

/-- Body of the row-mapping closure of transformRowsToLocations for the
data row at zero-based position idx. -/
def transformRow (key : String) (cm : ColMap) (idx : Nat) (row : List String) : Location :=
  let photoRef := getVal row cm.photo
  { id := "loc-" ++ toString idx
    name := orDefault (getVal row cm.name) "Unknown"
    city := orDefault (getVal row cm.city) "Japan"
    type := orDefault (getVal row cm.type) "Spot"
    priceJpy := orDefault (getVal row cm.price) "-"
    priceThb := "-"
    description := getVal row cm.desc
    googleMapsUrl := orDefault (getVal row cm.url) "#"
    lat := parseNum (getVal row cm.lat)
    lng := parseNum (getVal row cm.lng)
    photoUrl :=
      if startsWithStr photoRef "http" then some photoRef
      else if photoRef ≠ "" then some (getPhotoUrl key photoRef)
      else none }

/-- Index-carrying recursion implementing rows.slice(1).map((row, idx)). -/
def transformGo (key : String) (cm : ColMap) (idx : Nat) : List (List String) → List Location
  | [] => []
  | row :: rest => transformRow key cm idx row :: transformGo key cm (idx + 1) rest

/-- Embedding of transformRowsToLocations: drops the header row and maps
each data row through the row transformer with its position. -/
def transformRowsToLocations (key : String) (rows : List (List String)) (cm : ColMap) :
    List Location :=
  transformGo key cm 0 (rows.drop 1)

/-- Value written into one spreadsheet cell (numbers and strings occur). -/
inductive CellValue
  | num (n : Int)
  | str (s : String)
deriving DecidableEq

/-- One single-cell entry of a batched values update: the A1-style range
and the one-by-one values matrix. -/
structure BatchCell where
  range : String
  values : List (List CellValue)
deriving DecidableEq

/-- Effect on the Locations tab or on the locations cache, in issue order. -/
inductive LocEffect
  | headerWrite (newHeaders : List String)
  | batchWrite (data : List BatchCell)
  | cacheUpsert (data : List Location)
deriving DecidableEq

/-- Embedding of the header check-and-repair block of syncSheetToDb: when
lat, lng or photo is still -1, push the missing labels onto a copy of the
header row, take the appended indices, and issue one updateRange call on
Locations!A1 with the new header row; otherwise do nothing. -/
def repairHeaders (cm : ColMap) (header : List String) : ColMap × List LocEffect :=
  if cm.lat = -1 ∨ cm.lng = -1 ∨ cm.photo = -1 then
    let h1 := if cm.lat = -1 then header ++ ["Latitude"] else header
    let lat1 : Int := if cm.lat = -1 then (header.length : Int) else cm.lat
    let h2 := if cm.lng = -1 then h1 ++ ["Longitude"] else h1
    let lng1 : Int := if cm.lng = -1 then (h1.length : Int) else cm.lng
    let h3 := if cm.photo = -1 then h2 ++ ["Photo Reference"] else h2
    let photo1 : Int := if cm.photo = -1 then (h2.length : Int) else cm.photo
    ({ cm with lat := lat1, lng := lng1, photo := photo1 }, [LocEffect.headerWrite h3])
  else (cm, [])

/-- Data carried by the place-lookup collaborator on success (the fields
syncSheetToDb consumes); optional string fields use the empty string for
an absent value, matching the truthiness tests applied to them. -/
structure PlaceData where
  lat : Int
  lng : Int
  photoRef : String
  googleMapsUrl : String
  priceLevel : String
  type : String
  summary : String
deriving DecidableEq

/-- Pairs every list element with its zero-based position, starting at n
(the map of locations to loc-with-index objects). -/
def zipIdxFrom (n : Nat) : List Location → List (Nat × Location)
  | [] => []
  | a :: l => (n, a) :: zipIdxFrom (n + 1) l

/-- The hasPhotoRef test of the selection stage: the raw row backing
record i exists and its photo-reference cell is non-empty. -/
def rawHasPhotoRef (cm : ColMap) (rows : List (List String)) (i : Nat) : Bool :=
  match rows[i + 1]? with
  | none => false
  | some raw => getVal raw cm.photo ≠ ""

/-- The filter predicate of the identify-items-needing-fetch stage: a
record qualifies when its name resolved and any key field is missing
against its default. -/
def needsFetch (cm : ColMap) (rows : List (List String)) (loc : Location) (i : Nat) : Bool :=
  let hasPhotoRef : Bool := rawHasPhotoRef cm rows i
  loc.name ≠ "Unknown" &&
    ((loc.lat = 0 || loc.lng = 0) ||
     !hasPhotoRef ||
     (loc.type = "" || loc.type = "Spot") ||
     (loc.priceJpy = "" || loc.priceJpy = "-") ||
     loc.description = "" ||
     (loc.googleMapsUrl = "" || loc.googleMapsUrl = "#"))

/-- Embedding of the itemsToFetch selection: enumerate the canonical
records with their indices and keep those needing a lookup. -/
def itemsToFetchOf (cm : ColMap) (rows : List (List String)) (locs : List Location) :
    List (Location × Nat) :=
  ((zipIdxFrom 0 locs).filter fun p => needsFetch cm rows p.2 p.1).map fun p => (p.2, p.1)

/-- Coordinate assignment of the loop body: when either coordinate is
zero, both are overwritten with the fetched pair. -/
def mergeCoords (loc : Location) (d : PlaceData) : Location :=
  if loc.lat = 0 || loc.lng = 0 then { loc with lat := d.lat, lng := d.lng } else loc

/-- Url assignment of the loop body: filled only when still default and
a fetched url exists. -/
def mergeUrl (loc : Location) (d : PlaceData) : Location :=
  if (loc.googleMapsUrl = "" || loc.googleMapsUrl = "#") && d.googleMapsUrl ≠ "" then
    { loc with googleMapsUrl := d.googleMapsUrl }
  else loc

/-- Description assignment of the loop body. -/
def mergeDesc (loc : Location) (d : PlaceData) : Location :=
  if loc.description = "" && d.summary ≠ "" then { loc with description := d.summary } else loc

/-- Price assignment of the loop body. -/
def mergePrice (loc : Location) (d : PlaceData) : Location :=
  if (loc.priceJpy = "" || loc.priceJpy = "-") && d.priceLevel ≠ "" then
    { loc with priceJpy := d.priceLevel }
  else loc

/-- Type assignment of the loop body. -/
def mergeType (loc : Location) (d : PlaceData) : Location :=
  if (loc.type = "" || loc.type = "Spot") && d.type ≠ "" then { loc with type := d.type } else loc

/-- PhotoUrl assignment of the loop body: rebuilt from a non-empty
fetched reference when the current photoUrl is blank or auto-generated
(detected by the Google photo host marker substring). -/
def mergePhoto (key : String) (loc : Location) (d : PlaceData) : Location :=
  let blankPhoto : Bool :=
    match loc.photoUrl with
    | none => true
    | some p => p = ""
  if d.photoRef ≠ "" && (blankPhoto || hasSub ((loc.photoUrl).getD "") "maps.googleapis.com") then
    { loc with photoUrl := some (getPhotoUrl key d.photoRef) }
  else loc

/-- In-memory fill-only merge applied to one record on lookup success:
the sequence of guarded assignments the loop body performs on loc. -/
def mergePlace (key : String) (loc : Location) (d : PlaceData) : Location :=
  mergePhoto key (mergeType (mergePrice (mergeDesc (mergeUrl (mergeCoords loc d) d) d) d) d) d

/-- Pending sheet update pushed for one successful lookup: the 1-based
row (data index plus two) and the fetched field values. -/
structure SheetUpdate where
  rowIdx : Nat
  lat : Int
  lng : Int
  photoRef : String
  type : String
  price : String
  desc : String
  url : String
deriving DecidableEq

/-- The update object pushed by the loop body for record index i. -/
def mkUpdate (i : Nat) (d : PlaceData) : SheetUpdate where
  rowIdx := i + 2
  lat := d.lat
  lng := d.lng
  photoRef := d.photoRef
  type := d.type
  price := d.priceLevel
  desc := d.summary
  url := d.googleMapsUrl

/-- Terminal state of the sequential enrichment loop. -/
structure EnrichState where
  locs : List Location
  updates : List SheetUpdate
  updatedCount : Nat
  extraRemaining : Nat
deriving DecidableEq

/-- The sequential enrichment loop over the sliced selection: at iteration
k the oracle answers the elapsed-over-budget test and, when the loop goes
on, the lookup result; over budget records the sliced length minus the
processed count as extra remaining and stops; a failed lookup is skipped;
a successful one merges into the record at its index, counts it and
pushes one pending update. -/
def enrichGo (key : String) (L : Nat) (oracle : Nat → Bool × Option PlaceData)
    (locs : List Location) (pending : List (Location × Nat)) (k c : Nat)
    (acc : List SheetUpdate) : EnrichState :=
  match pending with
  | [] => ⟨locs, acc, c, 0⟩
  | (loc, i) :: rest =>
      if (oracle k).1 then ⟨locs, acc, c, L - c⟩
      else
        match (oracle k).2 with
        | none => enrichGo key L oracle locs rest (k + 1) c acc
        | some d =>
            enrichGo key L oracle (locs.set i (mergePlace key loc d)) rest (k + 1) (c + 1)
              (acc ++ [mkUpdate i d])

/-- Column letter of the single-cell range: fromCharCode(65 + n). -/
def getColLetter (n : Int) : String := String.mk [Char.ofNat (65 + n).toNat]

/-- A1-style single-cell range on the Locations tab. -/
def rangeOf (col : Int) (rowIdx : Nat) : String :=
  "Locations!" ++ getColLetter col ++ toString rowIdx

/-- Cells contributed to the batched write by one pending update: lat and
lng whenever their columns resolved, the other fields only when both the
column resolved and the fetched value is non-empty. -/
def cellsFor (cm : ColMap) (u : SheetUpdate) : List BatchCell :=
  (if cm.lat ≠ -1 then [⟨rangeOf cm.lat u.rowIdx, [[CellValue.num u.lat]]⟩] else []) ++
  (if cm.lng ≠ -1 then [⟨rangeOf cm.lng u.rowIdx, [[CellValue.num u.lng]]⟩] else []) ++
  (if cm.photo ≠ -1 && u.photoRef ≠ "" then
      [⟨rangeOf cm.photo u.rowIdx, [[CellValue.str u.photoRef]]⟩]
    else []) ++
  (if cm.type ≠ -1 && u.type ≠ "" then [⟨rangeOf cm.type u.rowIdx, [[CellValue.str u.type]]⟩]
    else []) ++
  (if cm.price ≠ -1 && u.price ≠ "" then
      [⟨rangeOf cm.price u.rowIdx, [[CellValue.str u.price]]⟩]
    else []) ++
  (if cm.desc ≠ -1 && u.desc ≠ "" then [⟨rangeOf cm.desc u.rowIdx, [[CellValue.str u.desc]]⟩]
    else []) ++
  (if cm.url ≠ -1 && u.url ≠ "" then [⟨rangeOf cm.url u.rowIdx, [[CellValue.str u.url]]⟩]
    else [])

/-- The flattened batchData of the write-back stage. -/
def batchDataOf (cm : ColMap) (updates : List SheetUpdate) : List BatchCell :=
  updates.flatMap (cellsFor cm)

/-- Result object returned by syncSheetToDb; the empty-sheet early return
carries no updatedCount field, modelled as none. -/
structure SyncResult where
  locations : List Location
  remainingCount : Nat
  updatedCount : Option Nat
deriving DecidableEq

/-- Return value and reified effect trace of one syncSheetToDb run. -/
structure SyncOutcome where
  result : SyncResult
  effects : List LocEffect
deriving DecidableEq

/-- Header stage of syncSheetToDb: normalize the header row, map aliases,
apply the legacy fallback, then run the check-and-repair block. -/
def syncHeaderStage (rows : List (List String)) : ColMap × List LocEffect :=
  repairHeaders (applyFallback (mkColMap ((rows.headD []).map normCell))) (rows.headD [])

/-- Column map a sync run addresses cells with. -/
def syncColMapOf (rows : List (List String)) : ColMap := (syncHeaderStage rows).1

/-- Canonical records a sync run builds from the fetched rows. -/
def syncLocations (key : String) (rows : List (List String)) : List Location :=
  transformRowsToLocations key rows (syncColMapOf rows)

/-- The full selection of records needing enrichment, before the item cap. -/
def syncSelection (key : String) (rows : List (List String)) : List (Location × Nat) :=
  itemsToFetchOf (syncColMapOf rows) rows (syncLocations key rows)

/-- Number of records selected for enrichment in the run. -/
def totalSelected (key : String) (rows : List (List String)) : Nat :=
  (syncSelection key rows).length

/-- The slicing of itemsToFetch to the first BATCH_SIZE (three) items
when the selection exceeds the cap. -/
def cappedSelection (key : String) (rows : List (List String)) : List (Location × Nat) :=
  if (syncSelection key rows).length > 3 then (syncSelection key rows).take 3
  else syncSelection key rows

/-- The remainingCount recorded at slicing time: the excess over the cap,
zero when nothing was sliced off. -/
def initialRemaining (key : String) (rows : List (List String)) : Nat :=
  if (syncSelection key rows).length > 3 then (syncSelection key rows).length - 3 else 0

/-- Terminal state of the budgeted loop run by one sync invocation. -/
def syncEnrichResult (key : String) (oracle : Nat → Bool × Option PlaceData)
    (rows : List (List String)) : EnrichState :=
  enrichGo key (cappedSelection key rows).length oracle (syncLocations key rows)
    (cappedSelection key rows) 0 0 []

/-- Main path of syncSheetToDb on a non-empty rows payload: header
resolution and repair, transformation, selection, cap at three items with
the excess recorded as remaining, the budgeted loop, the batched
write-back when any update is pending, and the unconditional cache
upsert. -/
def syncCore (key : String) (oracle : Nat → Bool × Option PlaceData)
    (rows : List (List String)) : SyncOutcome :=
  { result := { locations := (syncEnrichResult key oracle rows).locs
                remainingCount :=
                  initialRemaining key rows + (syncEnrichResult key oracle rows).extraRemaining
                updatedCount := some (syncEnrichResult key oracle rows).updatedCount }
    effects :=
      (syncHeaderStage rows).2 ++
        (if (syncEnrichResult key oracle rows).updates.isEmpty then []
         else
           [LocEffect.batchWrite
             (batchDataOf (syncColMapOf rows) (syncEnrichResult key oracle rows).updates)]) ++
        [LocEffect.cacheUpsert (syncEnrichResult key oracle rows).locs] }

/-- Embedding of syncSheetToDb: a missing or empty rows payload returns
the empty result without updatedCount and performs no effect at all;
otherwise the main path runs. -/
def syncSheetToDb (key : String) (oracle : Nat → Bool × Option PlaceData)
    (rows? : Option (List (List String))) : SyncOutcome :=
  match rows? with
  | none => ⟨⟨[], 0, none⟩, []⟩
  | some rows => if rows.isEmpty then ⟨⟨[], 0, none⟩, []⟩ else syncCore key oracle rows

/-- Replays the effect trace onto the cached locations snapshot of the
owner: each cache upsert wholesale replaces the snapshot. -/
def applyLocEffects (old : Option (List Location)) (effs : List LocEffect) :
    Option (List Location) :=
  effs.foldl
    (fun c e =>
      match e with
      | LocEffect.cacheUpsert d => some d
      | _ => c)
    old

/-- Itinerary item shape: day label, referenced location id, numeric
position within the day, free-form note. -/
structure ItinItem where
  day : String
  locationId : String
  order : Int
  note : String
deriving DecidableEq

/-- Default ItinItem used only to make list indexing total in statements. -/
def dfltItin : ItinItem where
  day := ""
  locationId := ""
  order := 0
  note := ""

/-- Row-to-item mapping of transformRowsToItinerary for the data row at
zero-based position idx: fixed columns Day, LocationId, Order, Note, the
order defaulting to the row position when the cell is empty. -/
def itinRow (idx : Nat) (row : List String) : ItinItem where
  day := orDefault (row.getD 0 "") "Unscheduled"
  locationId := row.getD 1 ""
  order := if row.getD 2 "" ≠ "" then parseNum (row.getD 2 "") else (idx : Int)
  note := row.getD 3 ""

/-- Index-carrying recursion over the itinerary data rows. -/
def itinGo (idx : Nat) : List (List String) → List ItinItem
  | [] => []
  | row :: rest => itinRow idx row :: itinGo (idx + 1) rest

/-- Embedding of transformRowsToItinerary: map the data rows, then keep
only the items whose locationId is non-empty. -/
def transformRowsToItinerary (rows : List (List String)) : List ItinItem :=
  (itinGo 0 (rows.drop 1)).filter fun it => it.locationId ≠ ""

/-- Itinerary list published to the cache by syncItinerary: the transform
of the fetched rows, or the empty list when the read returned nothing
(whether or not the header-creating write then succeeded). -/
def syncItineraryData (readRows : Option (List (List String))) : List ItinItem :=
  match readRows with
  | none => []
  | some rows => transformRowsToItinerary rows

/-- The sort comparator of updateItineraryInSheet turned into a total
preorder test: strictly earlier day (lexicographic character order
standing in for localeCompare), or same day and order no greater. -/
def itinLe (a b : ItinItem) : Bool :=
  if a.day ≠ b.day then decide (a.day.data < b.day.data) else decide (a.order ≤ b.order)

/-- Stable insertion of an item into a sorted list: the item goes right
before the first element it compares no greater than, so that ties keep
their original relative order, as the stable Array sort does. -/
def insertItin (a : ItinItem) : List ItinItem → List ItinItem
  | [] => [a]
  | b :: l => if itinLe a b then a :: b :: l else b :: insertItin a l

/-- Sorted copy of the incoming items, stable by day then order, as the
spread-then-sort with the day-then-order comparator produces (stable
insertion sort, extensionally the unique stable sort for this total
preorder). -/
def sortItinerary : List ItinItem → List ItinItem
  | [] => []
  | a :: l => insertItin a (sortItinerary l)

/-- Fixed header row written when the Itinerary tab is created. -/
def itinHeader : List CellValue :=
  [CellValue.str "Day", CellValue.str "Location ID", CellValue.str "Order", CellValue.str "Notes"]

/-- One sheet row of the full rewrite for one item. -/
def itinRowCells (it : ItinItem) : List CellValue :=
  [CellValue.str it.day, CellValue.str it.locationId, CellValue.num it.order, CellValue.str it.note]

/-- Effect on the Itinerary tab or on the itinerary cache, in issue order. -/
inductive ItinEffect
  | addSheet (title : String)
  | updateRange (range : String) (values : List (List CellValue))
  | clearRange (range : String)
  | cacheUpsert (data : List ItinItem)
deriving DecidableEq

/-- Embedding of updateItineraryInSheet. Inputs beyond the item list:
whether the spreadsheet metadata lists an Itinerary tab, and the outcome
of the tab-creation attempt when one is made (none for success, some
message for a raised error). The creation failure is swallowed exactly
when its message contains the already-exists signature; otherwise the
invocation aborts with the fatal creation error. On the surviving path:
clear the data region when the tab existed, write the sorted rows in one
range update when any exist, and upsert the sorted list into the cache. -/
def updateItineraryInSheet (tabExists : Bool) (createErr : Option String)
    (items : List ItinItem) : Except String (List ItinEffect) :=
  let sortedItems := sortItinerary items
  let rows := sortedItems.map itinRowCells
  let setup : Except String (List ItinEffect) :=
    if tabExists then Except.ok [ItinEffect.clearRange "Itinerary!A2:D"]
    else
      match createErr with
      | none =>
          Except.ok [ItinEffect.addSheet "Itinerary",
                     ItinEffect.updateRange "Itinerary!A1:D1" [itinHeader]]
      | some msg =>
          if hasSub msg "already exists" then Except.ok [ItinEffect.addSheet "Itinerary"]
          else Except.error "Failed to create Itinerary sheet"
  match setup with
  | Except.error e => Except.error e
  | Except.ok effs =>
      let effs2 :=
        if rows.length > 0 then
          effs ++ [ItinEffect.updateRange ("Itinerary!A2:D" ++ toString (rows.length + 1)) rows]
        else effs
      Except.ok (effs2 ++ [ItinEffect.cacheUpsert sortedItems])

/-- Replays the effect trace onto the cached itinerary snapshot of the
owner: each cache upsert wholesale replaces the snapshot. -/
def applyItinEffects (old : Option (List ItinItem)) (effs : List ItinEffect) :
    Option (List ItinItem) :=
  effs.foldl
    (fun c e =>
      match e with
      | ItinEffect.cacheUpsert d => some d
      | _ => c)
    old

lemma applyFallback_lat_ne (cm : ColMap) : (applyFallback cm).lat ≠ -1 := by
  simp only [applyFallback]
  split <;> simp_all

lemma applyFallback_lng_ne (cm : ColMap) : (applyFallback cm).lng ≠ -1 := by
  simp only [applyFallback]
  split <;> simp_all

lemma applyFallback_photo_ne (cm : ColMap) : (applyFallback cm).photo ≠ -1 := by
  simp only [applyFallback]
  split <;> simp_all

lemma repairHeaders_fallback (cm : ColMap) (hdr : List String) :
    repairHeaders (applyFallback cm) hdr = (applyFallback cm, []) := by
  unfold repairHeaders
  rw [if_neg]
  simp [applyFallback_lat_ne cm, applyFallback_lng_ne cm, applyFallback_photo_ne cm]

lemma syncHeaderStage_snd (rows : List (List String)) : (syncHeaderStage rows).2 = [] := by
  unfold syncHeaderStage
  rw [repairHeaders_fallback]

/-- C2: the schema-repair branch of syncSheetToDb is unreachable. The
legacy fallback unconditionally resolves lat, lng and photoRef to the
fixed indices 6, 7 and 8 whenever the aliases are missing, so after the
fallback no role is ever -1, the check-and-repair block never fires, and
no sync invocation ever appends header labels or persists a repaired
header row. -/
theorem headerRepairNeverRuns :
    ∀ (cm : ColMap) (hdr : List String) (key : String)
      (oracle : Nat → Bool × Option PlaceData) (rows? : Option (List (List String)))
      (nh : List String),
      repairHeaders (applyFallback cm) hdr = (applyFallback cm, []) ∧
      LocEffect.headerWrite nh ∉ (syncSheetToDb key oracle rows?).effects := by
  intro cm hdr key oracle rows? nh
  refine ⟨repairHeaders_fallback cm hdr, ?_⟩
  cases rows? with
  | none => simp [syncSheetToDb]
  | some rows =>
      by_cases hr : rows.isEmpty
      · simp [syncSheetToDb, hr]
      · simp only [syncSheetToDb, hr, if_neg, Bool.false_eq_true, ite_false, syncCore,
          syncHeaderStage_snd, List.nil_append, List.mem_append, List.mem_singleton]
        rintro (h | h)
        · split at h <;> simp_all
        · simp_all

/-- Concrete evaluation of the unreachable repair: a header row lacking
the Latitude, Longitude and Photo Reference labels still triggers no
repair and no header write, the fallback indices 6, 7 and 8 being
assigned instead. -/
theorem headerRepairConcreteEval :
    syncColMapOf [["Name", "City", "Type", "Price", "Description", "URL"], ["A"]] =
      { name := 0, city := 1, type := 2, price := 3, desc := 4, url := 5,
        lat := 6, lng := 7, photo := 8 } ∧
    (syncHeaderStage [["Name", "City", "Type", "Price", "Description", "URL"], ["A"]]).2 =
      [] := by
  decide

/-- C10: a sync invocation whose spreadsheet read yields no rows (a
missing or empty payload) returns the empty locations list with
remainingCount 0 and no updatedCount field, performs no header write, no
batched write and no cache upsert, and leaves the previously cached
snapshot unchanged. -/
theorem emptyReadShortCircuit :
    ∀ (key : String) (oracle : Nat → Bool × Option PlaceData) (old : Option (List Location)),
      syncSheetToDb key oracle none = ⟨⟨[], 0, none⟩, []⟩ ∧
      syncSheetToDb key oracle (some []) = ⟨⟨[], 0, none⟩, []⟩ ∧
      applyLocEffects old (syncSheetToDb key oracle none).effects = old ∧
      applyLocEffects old (syncSheetToDb key oracle (some [])).effects = old := by
  intro key oracle old
  exact ⟨rfl, rfl, rfl, rfl⟩

/-- C10 witness: the short-circuit evaluated at a concrete oracle and a
concrete previously cached snapshot. -/
theorem emptyReadShortCircuit_witness :
    syncSheetToDb "K" (fun _ => (false, none)) (some []) = ⟨⟨[], 0, none⟩, []⟩ ∧
    applyLocEffects (some [dfltLoc]) (syncSheetToDb "K" (fun _ => (false, none)) none).effects =
      some [dfltLoc] :=
  ⟨(emptyReadShortCircuit "K" (fun _ => (false, none)) (some [dfltLoc])).2.1,
   (emptyReadShortCircuit "K" (fun _ => (false, none)) (some [dfltLoc])).2.2.1⟩

lemma transformGo_length (key : String) (cm : ColMap) :
    ∀ (l : List (List String)) (n : Nat), (transformGo key cm n l).length = l.length := by
  intro l
  induction l with
  | nil => intro n; rfl
  | cons row rest ih => intro n; simp [transformGo, ih]

lemma transformGo_getD (key : String) (cm : ColMap) :
    ∀ (l : List (List String)) (n i : Nat), i < l.length →
      (transformGo key cm n l).getD i dfltLoc = transformRow key cm (n + i) (l.getD i []) := by
  intro l
  induction l with
  | nil => intro n i h; simp at h
  | cons row rest ih =>
      intro n i h
      cases i with
      | zero => simp [transformGo]
      | succ j =>
          have hj : j < rest.length := by simpa using h
          simp only [transformGo, List.getD_cons_succ]
          rw [ih (n + 1) j hj]
          congr 1
          omega

/-- C9: the canonical record built from the data row at zero-based
position i carries the identifier loc- followed by i; since the
transformer is a pure function of the rows and the column map, the
identifier of every position is identical across repeated calls on an
unchanged row sequence. -/
theorem positionalIds (key : String) (rows : List (List String)) (cm : ColMap) (i : Nat)
    (h : i < (transformRowsToLocations key rows cm).length) :
    ((transformRowsToLocations key rows cm).getD i dfltLoc).id = "loc-" ++ toString i := by
  unfold transformRowsToLocations at h ⊢
  rw [transformGo_length] at h
  rw [transformGo_getD key cm (rows.drop 1) 0 i h]
  simp [transformRow]

/-- C9 witness: on a concrete three-row sheet the record at data position
1 has identifier loc-1. -/
theorem positionalIds_witness :
    1 < (transformRowsToLocations "K" [["h"], ["a"], ["b"]] (mkColMap ["h"])).length ∧
    ((transformRowsToLocations "K" [["h"], ["a"], ["b"]] (mkColMap ["h"])).getD 1 dfltLoc).id =
      "loc-" ++ toString 1 :=
  ⟨by decide, positionalIds "K" [["h"], ["a"], ["b"]] (mkColMap ["h"]) 1 (by decide)⟩

/-- Enrichment qualification following the words of the specification: the
name is resolved (not the Unknown default) and at least one of
coordinates zero or missing, no photo reference present in the raw row,
type equal to the default placeholder, price equal to the default
placeholder, empty description, or url equal to the default placeholder.
Stated for comparison against the selection the code performs. -/
def specSelected (cm : ColMap) (rows : List (List String)) (loc : Location) (i : Nat) : Bool :=
  loc.name ≠ "Unknown" &&
    ((loc.lat = 0 || loc.lng = 0) ||
     !rawHasPhotoRef cm rows i ||
     loc.type = "Spot" ||
     loc.priceJpy = "-" ||
     loc.description = "" ||
     loc.googleMapsUrl = "#")

lemma orDefault_ne_empty (s d : String) (hd : d ≠ "") : orDefault s d ≠ "" := by
  unfold orDefault
  split <;> simp_all

lemma needsFetch_eq_specSelected (cm : ColMap) (rows : List (List String)) (loc : Location)
    (i : Nat) (ht : loc.type ≠ "") (hp : loc.priceJpy ≠ "") (hu : loc.googleMapsUrl ≠ "") :
    needsFetch cm rows loc i = specSelected cm rows loc i := by
  unfold needsFetch specSelected
  simp [ht, hp, hu]

lemma mem_zipIdxFrom (a : Location) :
    ∀ (l : List Location) (n i : Nat), ((i, a) ∈ zipIdxFrom n l ↔ ∃ j, i = n + j ∧ l[j]? = some a) := by
  intro l
  induction l with
  | nil => intro n i; simp [zipIdxFrom]
  | cons b rest ih =>
      intro n i
      simp only [zipIdxFrom, List.mem_cons, Prod.mk.injEq, ih (n + 1) i]
      constructor
      · rintro (⟨hi, hb⟩ | ⟨j, hj, hget⟩)
        · exact ⟨0, by omega, by simp [hb]⟩
        · exact ⟨j + 1, by omega, by simpa using hget⟩
      · rintro ⟨j, hj, hget⟩
        cases j with
        | zero =>
            left
            refine ⟨by omega, ?_⟩
            simpa using hget.symm
        | succ m =>
            right
            exact ⟨m, by omega, by simpa using hget⟩

lemma mem_itemsToFetchOf (cm : ColMap) (rows : List (List String)) (locs : List Location)
    (loc : Location) (i : Nat) :
    ((loc, i) ∈ itemsToFetchOf cm rows locs ↔
      locs[i]? = some loc ∧ needsFetch cm rows loc i = true) := by
  unfold itemsToFetchOf
  simp only [List.mem_map, List.mem_filter, Prod.mk.injEq]
  constructor
  · rintro ⟨⟨j, b⟩, ⟨hmem, hneed⟩, hb, hj⟩
    subst hb hj
    rcases (mem_zipIdxFrom b locs 0 j).1 hmem with ⟨m, hm, hget⟩
    have hjm : j = m := by omega
    subst hjm
    exact ⟨hget, hneed⟩
  · rintro ⟨hget, hneed⟩
    exact ⟨(i, loc), ⟨(mem_zipIdxFrom loc locs 0 i).2 ⟨i, by omega, hget⟩, hneed⟩, rfl, rfl⟩

lemma transformRow_type_ne (key : String) (cm : ColMap) (idx : Nat) (row : List String) :
    (transformRow key cm idx row).type ≠ "" := by
  simp only [transformRow]
  exact orDefault_ne_empty _ _ (by decide)

lemma transformRow_price_ne (key : String) (cm : ColMap) (idx : Nat) (row : List String) :
    (transformRow key cm idx row).priceJpy ≠ "" := by
  simp only [transformRow]
  exact orDefault_ne_empty _ _ (by decide)

lemma transformRow_url_ne (key : String) (cm : ColMap) (idx : Nat) (row : List String) :
    (transformRow key cm idx row).googleMapsUrl ≠ "" := by
  simp only [transformRow]
  exact orDefault_ne_empty _ _ (by decide)

/-- C5: a canonical record is selected for enrichment exactly when its
name is not the Unknown default and at least one of the following holds:
lat or lng is zero, the raw row carries no photo reference cell value,
type is the default placeholder Spot, price is the default placeholder
dash, the description is empty, or the url is the default placeholder
hash. -/
theorem enrichmentSelection (key : String) (rows : List (List String)) (i : Nat)
    (h : i < (syncLocations key rows).length) :
    (((syncLocations key rows).getD i dfltLoc, i) ∈ syncSelection key rows ↔
      specSelected (syncColMapOf rows) rows ((syncLocations key rows).getD i dfltLoc) i = true) := by
  have hget : (syncLocations key rows)[i]? = some ((syncLocations key rows).getD i dfltLoc) := by
    rw [List.getD_eq_getElem _ dfltLoc h]
    exact List.getElem?_eq_getElem h
  have hlen : i < (rows.drop 1).length := by
    have he : (syncLocations key rows).length = (rows.drop 1).length :=
      transformGo_length key (syncColMapOf rows) (rows.drop 1) 0
    omega
  have htr : (syncLocations key rows).getD i dfltLoc =
      transformRow key (syncColMapOf rows) i ((rows.drop 1).getD i []) := by
    have hg := transformGo_getD key (syncColMapOf rows) (rows.drop 1) 0 i hlen
    rw [Nat.zero_add] at hg
    exact hg
  rw [show syncSelection key rows =
        itemsToFetchOf (syncColMapOf rows) rows (syncLocations key rows) from rfl,
      mem_itemsToFetchOf]
  rw [needsFetch_eq_specSelected (syncColMapOf rows) rows _ i
        (htr ▸ transformRow_type_ne key (syncColMapOf rows) i ((rows.drop 1).getD i []))
        (htr ▸ transformRow_price_ne key (syncColMapOf rows) i ((rows.drop 1).getD i []))
        (htr ▸ transformRow_url_ne key (syncColMapOf rows) i ((rows.drop 1).getD i []))]
  exact ⟨fun hp => hp.2, fun hs => ⟨hget, hs⟩⟩

/-- Whether the elapsed-budget test fires at any of the n loop iterations
starting at k, halting the loop there. -/
def anyOverFrom (oracle : Nat → Bool × Option PlaceData) (k n : Nat) : Bool :=
  match n with
  | 0 => false
  | m + 1 => (oracle k).1 || anyOverFrom oracle (k + 1) m

/-- Number of successful lookups among the n iterations starting at k. -/
def okCountFrom (oracle : Nat → Bool × Option PlaceData) (k n : Nat) : Nat :=
  match n with
  | 0 => 0
  | m + 1 => (if (oracle k).2.isSome then 1 else 0) + okCountFrom oracle (k + 1) m

/-- Number of failed lookups among the n iterations starting at k. -/
def failCountFrom (oracle : Nat → Bool × Option PlaceData) (k n : Nat) : Nat :=
  match n with
  | 0 => 0
  | m + 1 => (if (oracle k).2.isNone then 1 else 0) + failCountFrom oracle (k + 1) m

lemma okCountFrom_add_failCountFrom (oracle : Nat → Bool × Option PlaceData) :
    ∀ (n k : Nat), okCountFrom oracle k n + failCountFrom oracle k n = n := by
  intro n
  induction n with
  | zero => intro k; rfl
  | succ m ih =>
      intro k
      simp only [okCountFrom, failCountFrom]
      have := ih (k + 1)
      cases ho : (oracle k).2 <;> simp [ho] <;> omega

lemma enrichGo_budget (key : String) (L : Nat) (oracle : Nat → Bool × Option PlaceData) :
    ∀ (pending : List (Location × Nat)) (k c : Nat) (locs : List Location)
      (acc : List SheetUpdate), c + pending.length ≤ L →
      (if anyOverFrom oracle k pending.length then
        (enrichGo key L oracle locs pending k c acc).updatedCount +
          (enrichGo key L oracle locs pending k c acc).extraRemaining = L
      else
        (enrichGo key L oracle locs pending k c acc).updatedCount =
            c + okCountFrom oracle k pending.length ∧
          (enrichGo key L oracle locs pending k c acc).extraRemaining = 0) := by
  intro pending
  induction pending with
  | nil =>
      intro k c locs acc hle
      simp [enrichGo, anyOverFrom, okCountFrom]
  | cons p rest ih =>
      intro k c locs acc hle
      obtain ⟨loc, i⟩ := p
      simp only [List.length_cons, anyOverFrom, enrichGo]
      cases hov : (oracle k).1 with
      | true =>
          simp only [hov, Bool.true_or, if_true, ite_true]
          simp only [List.length_cons] at hle
          omega
      | false =>
          simp only [hov, Bool.false_or, ite_false]
          cases hres : (oracle k).2 with
          | none =>
              have hle2 : c + rest.length ≤ L := by
                simp only [List.length_cons] at hle
                omega
              have h := ih (k + 1) c locs acc hle2
              simpa [okCountFrom, hres] using h
          | some d =>
              have hle2 : (c + 1) + rest.length ≤ L := by
                simp only [List.length_cons] at hle
                omega
              have h := ih (k + 1) (c + 1) (locs.set i (mergePlace key loc d)) (acc ++ [mkUpdate i d]) hle2
              by_cases hover : anyOverFrom oracle (k + 1) rest.length = true
              · simpa [hover, okCountFrom, hres] using h
              · simp only [Bool.not_eq_true] at hover
                simp [hres, hover, okCountFrom] at h ⊢
                refine ⟨?_, h.2⟩
                have h1 := h.1
                omega

lemma enrichGo_updates_length (key : String) (L : Nat) (oracle : Nat → Bool × Option PlaceData) :
    ∀ (pending : List (Location × Nat)) (k c : Nat) (locs : List Location)
      (acc : List SheetUpdate),
      (enrichGo key L oracle locs pending k c acc).updates.length + c =
        acc.length + (enrichGo key L oracle locs pending k c acc).updatedCount := by
  intro pending
  induction pending with
  | nil => intro k c locs acc; simp [enrichGo]
  | cons p rest ih =>
      intro k c locs acc
      obtain ⟨loc, i⟩ := p
      simp only [enrichGo]
      cases hov : (oracle k).1 with
      | true => simp [hov]
      | false =>
          simp only [hov, ite_false, Bool.false_eq_true]
          cases hres : (oracle k).2 with
          | none =>
              simp only [hres]
              exact ih (k + 1) c locs acc
          | some d =>
              simp only [hres]
              have h := ih (k + 1) (c + 1) (locs.set i (mergePlace key loc d)) (acc ++ [mkUpdate i d])
              simp only [List.length_append, List.length_singleton] at h
              omega

lemma cappedSelection_length (key : String) (rows : List (List String)) :
    (cappedSelection key rows).length = min (totalSelected key rows) 3 := by
  unfold cappedSelection totalSelected
  split
  · simp only [List.length_take]
    omega
  · omega

lemma initialRemaining_eq (key : String) (rows : List (List String)) :
    initialRemaining key rows = totalSelected key rows - min (totalSelected key rows) 3 := by
  unfold initialRemaining totalSelected
  split <;> omega

lemma syncEnrichResult_budget (key : String) (oracle : Nat → Bool × Option PlaceData)
    (rows : List (List String)) :
    if anyOverFrom oracle 0 (min (totalSelected key rows) 3) = true then
      (syncEnrichResult key oracle rows).updatedCount +
        (syncEnrichResult key oracle rows).extraRemaining = min (totalSelected key rows) 3
    else
      (syncEnrichResult key oracle rows).updatedCount =
          okCountFrom oracle 0 (min (totalSelected key rows) 3) ∧
        (syncEnrichResult key oracle rows).extraRemaining = 0 := by
  have hlen := cappedSelection_length key rows
  have hb := enrichGo_budget key (cappedSelection key rows).length oracle
    (cappedSelection key rows) 0 0 (syncLocations key rows) [] (by simp)
  rw [hlen] at hb
  unfold syncEnrichResult
  rw [hlen]
  simpa using hb

lemma syncSheetToDb_some (key : String) (oracle : Nat → Bool × Option PlaceData)
    (rows : List (List String)) (hr : ¬rows.isEmpty = true) :
    syncSheetToDb key oracle (some rows) = syncCore key oracle rows := by
  simp [syncSheetToDb, hr]

/-- C1 (amended): within one sync invocation, when the wall-clock budget
halts the loop the processed count plus the reported remainingCount
equals the number of records selected for enrichment; when the loop runs
to completion they fall short of it by exactly the number of lookups
that returned nothing, each failed lookup being counted neither as
processed nor as remaining. -/
theorem budgetConservationAmended (key : String) (oracle : Nat → Bool × Option PlaceData)
    (rows : List (List String)) :
    if anyOverFrom oracle 0 (min (totalSelected key rows) 3) = true then
      (syncSheetToDb key oracle (some rows)).result.updatedCount.getD 0 +
        (syncSheetToDb key oracle (some rows)).result.remainingCount = totalSelected key rows
    else
      (syncSheetToDb key oracle (some rows)).result.updatedCount.getD 0 +
          (syncSheetToDb key oracle (some rows)).result.remainingCount +
          failCountFrom oracle 0 (min (totalSelected key rows) 3) = totalSelected key rows := by
  by_cases hr : rows.isEmpty = true
  · have h0 : rows = [] := by
      cases rows with
      | nil => rfl
      | cons a l => simp [List.isEmpty] at hr
    subst h0
    have hT : totalSelected key [] = 0 := rfl
    simp only [hT]
    rw [show (min (0 : Nat) 3) = 0 from rfl]
    simp [anyOverFrom, failCountFrom, syncSheetToDb]
  · rw [syncSheetToDb_some key oracle rows hr]
    have hb := syncEnrichResult_budget key oracle rows
    have hir := initialRemaining_eq key rows
    have hminle : min (totalSelected key rows) 3 ≤ totalSelected key rows := Nat.min_le_left _ _
    simp only [syncCore, Option.getD_some]
    by_cases hA : anyOverFrom oracle 0 (min (totalSelected key rows) 3) = true
    · rw [if_pos hA] at hb ⊢
      omega
    · rw [if_neg hA] at hb ⊢
      have hof := okCountFrom_add_failCountFrom oracle (min (totalSelected key rows) 3) 0
      have h1 := hb.1
      have h2 := hb.2
      omega

/-- Header row matching all nine column aliases, used by concrete runs. -/
def hdrRow : List String :=
  ["Restaurant Name", "City", "Cuisine Type", "Price (JPY)", "Best For", "Google Maps",
   "Latitude", "Longitude", "Photo Reference"]

/-- Data row complete except for the photo-reference cell. -/
def rowNoPhoto : List String :=
  ["A", "Tokyo", "Cafe", "800", "nice", "http://u", "35", "139", ""]

/-- Sheet with one fully user-populated row lacking only a photo
reference. -/
def rowsNoPhoto : List (List String) := [hdrRow, rowNoPhoto]

/-- Oracle under which the budget never fires and every lookup fails. -/
def oracleNone : Nat → Bool × Option PlaceData := fun _ => (false, none)

/-- C1 counterexample: one record is selected for enrichment, its lookup
fails, the loop completes, and the invocation reports updatedCount 0 and
remainingCount 0, so processed plus remaining is 0 and not the 1 record
selected: the conservation identity of the claim fails under lookup
failure. -/
theorem budgetConservationCex :
    totalSelected "K" rowsNoPhoto = 1 ∧
    (syncSheetToDb "K" oracleNone (some rowsNoPhoto)).result.updatedCount = some 0 ∧
    (syncSheetToDb "K" oracleNone (some rowsNoPhoto)).result.remainingCount = 0 ∧
    (0 : Nat) + 0 ≠ 1 := by
  decide

/-- C5 witness: the selection equivalence instantiated on the concrete
one-row sheet missing only a photo reference, whose record is selected. -/
theorem enrichmentSelection_witness :
    0 < (syncLocations "K" rowsNoPhoto).length ∧
    (((syncLocations "K" rowsNoPhoto).getD 0 dfltLoc, 0) ∈ syncSelection "K" rowsNoPhoto ↔
      specSelected (syncColMapOf rowsNoPhoto) rowsNoPhoto
        ((syncLocations "K" rowsNoPhoto).getD 0 dfltLoc) 0 = true) :=
  ⟨by decide, enrichmentSelection "K" rowsNoPhoto 0 (by decide)⟩

/-- Place data returned by a successful lookup in the concrete runs. -/
def placeFetched : PlaceData where
  lat := 34
  lng := 135
  photoRef := ""
  googleMapsUrl := "http://g"
  priceLevel := "YY"
  type := "Bar"
  summary := "sum"

/-- Oracle under which the budget never fires and every lookup succeeds
with placeFetched. -/
def oracleHit : Nat → Bool × Option PlaceData := fun _ => (false, some placeFetched)

/-- C3 counterexample: on the sheet whose single record lacks only a
photo reference, a successful lookup changes nothing in the in-memory
record (every field was already non-default and no photo reference was
returned), yet the invocation still issues a batched write containing
six cells, among them latitude and longitude cells carrying the fetched
values. Cells of unchanged fields are written. -/
theorem batchWriteCex :
    (syncSheetToDb "K" oracleHit (some rowsNoPhoto)).result.locations =
      syncLocations "K" rowsNoPhoto ∧
    LocEffect.batchWrite
        [⟨"Locations!G2", [[CellValue.num 34]]⟩, ⟨"Locations!H2", [[CellValue.num 135]]⟩,
         ⟨"Locations!C2", [[CellValue.str "Bar"]]⟩, ⟨"Locations!D2", [[CellValue.str "YY"]]⟩,
         ⟨"Locations!E2", [[CellValue.str "sum"]]⟩, ⟨"Locations!F2", [[CellValue.str "http://g"]]⟩] ∈
      (syncSheetToDb "K" oracleHit (some rowsNoPhoto)).effects := by
  decide

/-- Number of batched spreadsheet write calls in an effect trace. -/
def batchWriteCount : List LocEffect → Nat
  | [] => 0
  | LocEffect.batchWrite _ :: rest => 1 + batchWriteCount rest
  | LocEffect.headerWrite _ :: rest => batchWriteCount rest
  | LocEffect.cacheUpsert _ :: rest => batchWriteCount rest

lemma syncEnrichResult_updates_length (key : String) (oracle : Nat → Bool × Option PlaceData)
    (rows : List (List String)) :
    (syncEnrichResult key oracle rows).updates.length =
      (syncEnrichResult key oracle rows).updatedCount := by
  have h := enrichGo_updates_length key (cappedSelection key rows).length oracle
    (cappedSelection key rows) 0 0 (syncLocations key rows) []
  simpa [syncEnrichResult] using h

/-- C3 (amended): every sync invocation issues at most one batched
spreadsheet write, and issues none exactly when no lookup succeeded (the
pending-update list is empty); when a write is issued its cells carry
the fetched values under the column and non-emptiness guards of the
write-back stage, regardless of whether the in-memory record changed. -/
theorem batchWriteDiscipline (key : String) (oracle : Nat → Bool × Option PlaceData)
    (rows? : Option (List (List String))) :
    batchWriteCount (syncSheetToDb key oracle rows?).effects ≤ 1 ∧
    (batchWriteCount (syncSheetToDb key oracle rows?).effects = 0 ↔
      (syncSheetToDb key oracle rows?).result.updatedCount.getD 0 = 0) := by
  cases rows? with
  | none => simp [syncSheetToDb, batchWriteCount]
  | some rows =>
      by_cases hr : rows.isEmpty = true
      · simp [syncSheetToDb, hr, batchWriteCount]
      · rw [syncSheetToDb_some key oracle rows hr]
        have hul := syncEnrichResult_updates_length key oracle rows
        simp only [syncCore, Option.getD_some, syncHeaderStage_snd, List.nil_append]
        by_cases hu : (syncEnrichResult key oracle rows).updates.isEmpty = true
        · have hupd : (syncEnrichResult key oracle rows).updates = [] := by
            simpa using hu
          have hz : (syncEnrichResult key oracle rows).updatedCount = 0 := by
            rw [hupd] at hul
            simpa using hul.symm
          simp [hu, batchWriteCount, hz]
        · have hpos : 0 < (syncEnrichResult key oracle rows).updates.length := by
            cases hl : (syncEnrichResult key oracle rows).updates with
            | nil => rw [hl] at hu; simp at hu
            | cons a l => simp [hl]
          have hnz : (syncEnrichResult key oracle rows).updatedCount ≠ 0 := by
            omega
          simp [hu, batchWriteCount, hnz]


@[simp] lemma mergeCoords_id (loc : Location) (d : PlaceData) :
    (mergeCoords loc d).id = loc.id := by
  unfold mergeCoords
  split <;> rfl

@[simp] lemma mergeCoords_name (loc : Location) (d : PlaceData) :
    (mergeCoords loc d).name = loc.name := by
  unfold mergeCoords
  split <;> rfl

@[simp] lemma mergeCoords_city (loc : Location) (d : PlaceData) :
    (mergeCoords loc d).city = loc.city := by
  unfold mergeCoords
  split <;> rfl

@[simp] lemma mergeCoords_type (loc : Location) (d : PlaceData) :
    (mergeCoords loc d).type = loc.type := by
  unfold mergeCoords
  split <;> rfl

@[simp] lemma mergeCoords_priceJpy (loc : Location) (d : PlaceData) :
    (mergeCoords loc d).priceJpy = loc.priceJpy := by
  unfold mergeCoords
  split <;> rfl

@[simp] lemma mergeCoords_priceThb (loc : Location) (d : PlaceData) :
    (mergeCoords loc d).priceThb = loc.priceThb := by
  unfold mergeCoords
  split <;> rfl

@[simp] lemma mergeCoords_description (loc : Location) (d : PlaceData) :
    (mergeCoords loc d).description = loc.description := by
  unfold mergeCoords
  split <;> rfl

@[simp] lemma mergeCoords_googleMapsUrl (loc : Location) (d : PlaceData) :
    (mergeCoords loc d).googleMapsUrl = loc.googleMapsUrl := by
  unfold mergeCoords
  split <;> rfl

@[simp] lemma mergeCoords_photoUrl (loc : Location) (d : PlaceData) :
    (mergeCoords loc d).photoUrl = loc.photoUrl := by
  unfold mergeCoords
  split <;> rfl

@[simp] lemma mergeUrl_id (loc : Location) (d : PlaceData) :
    (mergeUrl loc d).id = loc.id := by
  unfold mergeUrl
  split <;> rfl

@[simp] lemma mergeUrl_name (loc : Location) (d : PlaceData) :
    (mergeUrl loc d).name = loc.name := by
  unfold mergeUrl
  split <;> rfl

@[simp] lemma mergeUrl_city (loc : Location) (d : PlaceData) :
    (mergeUrl loc d).city = loc.city := by
  unfold mergeUrl
  split <;> rfl

@[simp] lemma mergeUrl_type (loc : Location) (d : PlaceData) :
    (mergeUrl loc d).type = loc.type := by
  unfold mergeUrl
  split <;> rfl

@[simp] lemma mergeUrl_priceJpy (loc : Location) (d : PlaceData) :
    (mergeUrl loc d).priceJpy = loc.priceJpy := by
  unfold mergeUrl
  split <;> rfl

@[simp] lemma mergeUrl_priceThb (loc : Location) (d : PlaceData) :
    (mergeUrl loc d).priceThb = loc.priceThb := by
  unfold mergeUrl
  split <;> rfl

@[simp] lemma mergeUrl_description (loc : Location) (d : PlaceData) :
    (mergeUrl loc d).description = loc.description := by
  unfold mergeUrl
  split <;> rfl

@[simp] lemma mergeUrl_lat (loc : Location) (d : PlaceData) :
    (mergeUrl loc d).lat = loc.lat := by
  unfold mergeUrl
  split <;> rfl

@[simp] lemma mergeUrl_lng (loc : Location) (d : PlaceData) :
    (mergeUrl loc d).lng = loc.lng := by
  unfold mergeUrl
  split <;> rfl

@[simp] lemma mergeUrl_photoUrl (loc : Location) (d : PlaceData) :
    (mergeUrl loc d).photoUrl = loc.photoUrl := by
  unfold mergeUrl
  split <;> rfl

@[simp] lemma mergeDesc_id (loc : Location) (d : PlaceData) :
    (mergeDesc loc d).id = loc.id := by
  unfold mergeDesc
  split <;> rfl

@[simp] lemma mergeDesc_name (loc : Location) (d : PlaceData) :
    (mergeDesc loc d).name = loc.name := by
  unfold mergeDesc
  split <;> rfl

@[simp] lemma mergeDesc_city (loc : Location) (d : PlaceData) :
    (mergeDesc loc d).city = loc.city := by
  unfold mergeDesc
  split <;> rfl

@[simp] lemma mergeDesc_type (loc : Location) (d : PlaceData) :
    (mergeDesc loc d).type = loc.type := by
  unfold mergeDesc
  split <;> rfl

@[simp] lemma mergeDesc_priceJpy (loc : Location) (d : PlaceData) :
    (mergeDesc loc d).priceJpy = loc.priceJpy := by
  unfold mergeDesc
  split <;> rfl

@[simp] lemma mergeDesc_priceThb (loc : Location) (d : PlaceData) :
    (mergeDesc loc d).priceThb = loc.priceThb := by
  unfold mergeDesc
  split <;> rfl

@[simp] lemma mergeDesc_googleMapsUrl (loc : Location) (d : PlaceData) :
    (mergeDesc loc d).googleMapsUrl = loc.googleMapsUrl := by
  unfold mergeDesc
  split <;> rfl

@[simp] lemma mergeDesc_lat (loc : Location) (d : PlaceData) :
    (mergeDesc loc d).lat = loc.lat := by
  unfold mergeDesc
  split <;> rfl

@[simp] lemma mergeDesc_lng (loc : Location) (d : PlaceData) :
    (mergeDesc loc d).lng = loc.lng := by
  unfold mergeDesc
  split <;> rfl

@[simp] lemma mergeDesc_photoUrl (loc : Location) (d : PlaceData) :
    (mergeDesc loc d).photoUrl = loc.photoUrl := by
  unfold mergeDesc
  split <;> rfl

@[simp] lemma mergePrice_id (loc : Location) (d : PlaceData) :
    (mergePrice loc d).id = loc.id := by
  unfold mergePrice
  split <;> rfl

@[simp] lemma mergePrice_name (loc : Location) (d : PlaceData) :
    (mergePrice loc d).name = loc.name := by
  unfold mergePrice
  split <;> rfl

@[simp] lemma mergePrice_city (loc : Location) (d : PlaceData) :
    (mergePrice loc d).city = loc.city := by
  unfold mergePrice
  split <;> rfl

@[simp] lemma mergePrice_type (loc : Location) (d : PlaceData) :
    (mergePrice loc d).type = loc.type := by
  unfold mergePrice
  split <;> rfl

@[simp] lemma mergePrice_priceThb (loc : Location) (d : PlaceData) :
    (mergePrice loc d).priceThb = loc.priceThb := by
  unfold mergePrice
  split <;> rfl

@[simp] lemma mergePrice_description (loc : Location) (d : PlaceData) :
    (mergePrice loc d).description = loc.description := by
  unfold mergePrice
  split <;> rfl

@[simp] lemma mergePrice_googleMapsUrl (loc : Location) (d : PlaceData) :
    (mergePrice loc d).googleMapsUrl = loc.googleMapsUrl := by
  unfold mergePrice
  split <;> rfl

@[simp] lemma mergePrice_lat (loc : Location) (d : PlaceData) :
    (mergePrice loc d).lat = loc.lat := by
  unfold mergePrice
  split <;> rfl

@[simp] lemma mergePrice_lng (loc : Location) (d : PlaceData) :
    (mergePrice loc d).lng = loc.lng := by
  unfold mergePrice
  split <;> rfl

@[simp] lemma mergePrice_photoUrl (loc : Location) (d : PlaceData) :
    (mergePrice loc d).photoUrl = loc.photoUrl := by
  unfold mergePrice
  split <;> rfl

@[simp] lemma mergeType_id (loc : Location) (d : PlaceData) :
    (mergeType loc d).id = loc.id := by
  unfold mergeType
  split <;> rfl

@[simp] lemma mergeType_name (loc : Location) (d : PlaceData) :
    (mergeType loc d).name = loc.name := by
  unfold mergeType
  split <;> rfl

@[simp] lemma mergeType_city (loc : Location) (d : PlaceData) :
    (mergeType loc d).city = loc.city := by
  unfold mergeType
  split <;> rfl

@[simp] lemma mergeType_priceJpy (loc : Location) (d : PlaceData) :
    (mergeType loc d).priceJpy = loc.priceJpy := by
  unfold mergeType
  split <;> rfl

@[simp] lemma mergeType_priceThb (loc : Location) (d : PlaceData) :
    (mergeType loc d).priceThb = loc.priceThb := by
  unfold mergeType
  split <;> rfl

@[simp] lemma mergeType_description (loc : Location) (d : PlaceData) :
    (mergeType loc d).description = loc.description := by
  unfold mergeType
  split <;> rfl

@[simp] lemma mergeType_googleMapsUrl (loc : Location) (d : PlaceData) :
    (mergeType loc d).googleMapsUrl = loc.googleMapsUrl := by
  unfold mergeType
  split <;> rfl

@[simp] lemma mergeType_lat (loc : Location) (d : PlaceData) :
    (mergeType loc d).lat = loc.lat := by
  unfold mergeType
  split <;> rfl

@[simp] lemma mergeType_lng (loc : Location) (d : PlaceData) :
    (mergeType loc d).lng = loc.lng := by
  unfold mergeType
  split <;> rfl

@[simp] lemma mergeType_photoUrl (loc : Location) (d : PlaceData) :
    (mergeType loc d).photoUrl = loc.photoUrl := by
  unfold mergeType
  split <;> rfl

@[simp] lemma mergePhoto_id (key : String) (loc : Location) (d : PlaceData) :
    (mergePhoto key loc d).id = loc.id := by
  unfold mergePhoto
  cases hp : loc.photoUrl <;> dsimp only [] <;> split <;> rfl

@[simp] lemma mergePhoto_name (key : String) (loc : Location) (d : PlaceData) :
    (mergePhoto key loc d).name = loc.name := by
  unfold mergePhoto
  cases hp : loc.photoUrl <;> dsimp only [] <;> split <;> rfl

@[simp] lemma mergePhoto_city (key : String) (loc : Location) (d : PlaceData) :
    (mergePhoto key loc d).city = loc.city := by
  unfold mergePhoto
  cases hp : loc.photoUrl <;> dsimp only [] <;> split <;> rfl

@[simp] lemma mergePhoto_type (key : String) (loc : Location) (d : PlaceData) :
    (mergePhoto key loc d).type = loc.type := by
  unfold mergePhoto
  cases hp : loc.photoUrl <;> dsimp only [] <;> split <;> rfl

@[simp] lemma mergePhoto_priceJpy (key : String) (loc : Location) (d : PlaceData) :
    (mergePhoto key loc d).priceJpy = loc.priceJpy := by
  unfold mergePhoto
  cases hp : loc.photoUrl <;> dsimp only [] <;> split <;> rfl

@[simp] lemma mergePhoto_priceThb (key : String) (loc : Location) (d : PlaceData) :
    (mergePhoto key loc d).priceThb = loc.priceThb := by
  unfold mergePhoto
  cases hp : loc.photoUrl <;> dsimp only [] <;> split <;> rfl

@[simp] lemma mergePhoto_description (key : String) (loc : Location) (d : PlaceData) :
    (mergePhoto key loc d).description = loc.description := by
  unfold mergePhoto
  cases hp : loc.photoUrl <;> dsimp only [] <;> split <;> rfl

@[simp] lemma mergePhoto_googleMapsUrl (key : String) (loc : Location) (d : PlaceData) :
    (mergePhoto key loc d).googleMapsUrl = loc.googleMapsUrl := by
  unfold mergePhoto
  cases hp : loc.photoUrl <;> dsimp only [] <;> split <;> rfl

@[simp] lemma mergePhoto_lat (key : String) (loc : Location) (d : PlaceData) :
    (mergePhoto key loc d).lat = loc.lat := by
  unfold mergePhoto
  cases hp : loc.photoUrl <;> dsimp only [] <;> split <;> rfl

@[simp] lemma mergePhoto_lng (key : String) (loc : Location) (d : PlaceData) :
    (mergePhoto key loc d).lng = loc.lng := by
  unfold mergePhoto
  cases hp : loc.photoUrl <;> dsimp only [] <;> split <;> rfl

lemma mergeCoords_keepCoords (loc : Location) (d : PlaceData) (h1 : loc.lat ≠ 0)
    (h2 : loc.lng ≠ 0) :
    (mergeCoords loc d).lat = loc.lat ∧ (mergeCoords loc d).lng = loc.lng := by
  unfold mergeCoords
  simp [h1, h2]

lemma mergeUrl_keepUrl (loc : Location) (d : PlaceData) (h1 : loc.googleMapsUrl ≠ "")
    (h2 : loc.googleMapsUrl ≠ "#") :
    (mergeUrl loc d).googleMapsUrl = loc.googleMapsUrl := by
  unfold mergeUrl
  simp [h1, h2]

lemma mergeDesc_keepDesc (loc : Location) (d : PlaceData) (h : loc.description ≠ "") :
    (mergeDesc loc d).description = loc.description := by
  unfold mergeDesc
  simp [h]

lemma mergePrice_keepPrice (loc : Location) (d : PlaceData) (h1 : loc.priceJpy ≠ "")
    (h2 : loc.priceJpy ≠ "-") :
    (mergePrice loc d).priceJpy = loc.priceJpy := by
  unfold mergePrice
  simp [h1, h2]

lemma mergeType_keepType (loc : Location) (d : PlaceData) (h1 : loc.type ≠ "")
    (h2 : loc.type ≠ "Spot") :
    (mergeType loc d).type = loc.type := by
  unfold mergeType
  simp [h1, h2]

lemma mergePhoto_keepPhoto (key : String) (loc : Location) (d : PlaceData) (p : String)
    (hp : loc.photoUrl = some p) (h1 : p ≠ "")
    (h2 : hasSub p "maps.googleapis.com" = false) :
    (mergePhoto key loc d).photoUrl = loc.photoUrl := by
  unfold mergePhoto
  simp [hp, h1, h2]

/-- C4 (amended): in the in-memory merge of a successful lookup, id,
name, city and priceThb are never touched; a non-default url,
description, price or type keeps its prior value; the coordinates are
treated as one unit, both kept only when both are non-zero (either one
zero lets the fetched pair overwrite both); and a photoUrl that is
non-blank and does not contain the Google photo host marker substring
keeps its prior value. -/
theorem fillOnlyMergeAmended (key : String) (loc : Location) (d : PlaceData) :
    (mergePlace key loc d).id = loc.id ∧
    (mergePlace key loc d).name = loc.name ∧
    (mergePlace key loc d).city = loc.city ∧
    (mergePlace key loc d).priceThb = loc.priceThb ∧
    (loc.lat ≠ 0 → loc.lng ≠ 0 →
      (mergePlace key loc d).lat = loc.lat ∧ (mergePlace key loc d).lng = loc.lng) ∧
    (loc.googleMapsUrl ≠ "" → loc.googleMapsUrl ≠ "#" →
      (mergePlace key loc d).googleMapsUrl = loc.googleMapsUrl) ∧
    (loc.description ≠ "" → (mergePlace key loc d).description = loc.description) ∧
    (loc.priceJpy ≠ "" → loc.priceJpy ≠ "-" →
      (mergePlace key loc d).priceJpy = loc.priceJpy) ∧
    (loc.type ≠ "" → loc.type ≠ "Spot" → (mergePlace key loc d).type = loc.type) ∧
    (∀ p : String, loc.photoUrl = some p → p ≠ "" →
      hasSub p "maps.googleapis.com" = false → (mergePlace key loc d).photoUrl = some p) := by
  refine ⟨by simp [mergePlace], by simp [mergePlace], by simp [mergePlace], by simp [mergePlace],
    ?_, ?_, ?_, ?_, ?_, ?_⟩
  · intro h1 h2
    have hk := mergeCoords_keepCoords loc d h1 h2
    constructor
    · simp [mergePlace, hk.1]
    · simp [mergePlace, hk.2]
  · intro h1 h2
    have h1' : (mergeCoords loc d).googleMapsUrl ≠ "" := by simpa using h1
    have h2' : (mergeCoords loc d).googleMapsUrl ≠ "#" := by simpa using h2
    simp [mergePlace, mergeUrl_keepUrl (mergeCoords loc d) d h1' h2']
  · intro h
    have h' : (mergeUrl (mergeCoords loc d) d).description ≠ "" := by simpa using h
    simp [mergePlace, mergeDesc_keepDesc (mergeUrl (mergeCoords loc d) d) d h']
  · intro h1 h2
    have h1' : (mergeDesc (mergeUrl (mergeCoords loc d) d) d).priceJpy ≠ "" := by simpa using h1
    have h2' : (mergeDesc (mergeUrl (mergeCoords loc d) d) d).priceJpy ≠ "-" := by simpa using h2
    simp [mergePlace, mergePrice_keepPrice (mergeDesc (mergeUrl (mergeCoords loc d) d) d) d h1' h2']
  · intro h1 h2
    have h1' : (mergePrice (mergeDesc (mergeUrl (mergeCoords loc d) d) d) d).type ≠ "" := by
      simpa using h1
    have h2' : (mergePrice (mergeDesc (mergeUrl (mergeCoords loc d) d) d) d).type ≠ "Spot" := by
      simpa using h2
    simp [mergePlace,
      mergeType_keepType (mergePrice (mergeDesc (mergeUrl (mergeCoords loc d) d) d) d) d h1' h2']
  · intro p hp h1 h2
    have hp' : (mergeType (mergePrice (mergeDesc (mergeUrl (mergeCoords loc d) d) d) d) d).photoUrl =
        some p := by simpa using hp
    unfold mergePlace
    rw [mergePhoto_keepPhoto key
      (mergeType (mergePrice (mergeDesc (mergeUrl (mergeCoords loc d) d) d) d) d) d p hp' h1 h2]
    exact hp'

/-- Record with a user-entered latitude but a zero longitude. -/
def locHalfCoord : Location where
  id := "loc-0"
  name := "A"
  city := "Tokyo"
  type := "Cafe"
  priceJpy := "800"
  priceThb := "-"
  description := "d"
  googleMapsUrl := "http://u"
  lat := 35
  lng := 0
  photoUrl := none

/-- Fully non-default record with a user-supplied photo url. -/
def locFull : Location where
  id := "loc-0"
  name := "A"
  city := "Tokyo"
  type := "Cafe"
  priceJpy := "800"
  priceThb := "-"
  description := "d"
  googleMapsUrl := "http://u"
  lat := 35
  lng := 139
  photoUrl := some "http://user"

/-- Rich place data with a photo reference, for merge runs. -/
def dEnrich : PlaceData where
  lat := 34
  lng := 135
  photoRef := "r"
  googleMapsUrl := "http://g"
  priceLevel := "YY"
  type := "Bar"
  summary := "sum"

/-- Sheet whose single row carries a user-pasted photo url on the Google
photo host. -/
def rowsUserPhoto : List (List String) :=
  [hdrRow, ["B", "Tokyo", "Cafe", "800", "d", "http://u", "35", "139",
            "https://maps.googleapis.com/user"]]

/-- C4 counterexample: a record with non-zero latitude 35 but zero
longitude has its latitude overwritten to the fetched 34 (the pair is
assigned together), although latitude was already non-default; and a
record whose photoUrl was user-supplied verbatim from the sheet cell,
but happens to contain the Google photo host substring, has its
photoUrl rebuilt from the fetched reference. -/
theorem fillOnlyMergeCex :
    locHalfCoord.lat = 35 ∧ locHalfCoord.lat ≠ 0 ∧
    (mergePlace "K" locHalfCoord dEnrich).lat = 34 ∧
    ((syncLocations "K" rowsUserPhoto).getD 0 dfltLoc).photoUrl =
      some "https://maps.googleapis.com/user" ∧
    (mergePlace "K" ((syncLocations "K" rowsUserPhoto).getD 0 dfltLoc) dEnrich).photoUrl =
      some (getPhotoUrl "K" "r") ∧
    getPhotoUrl "K" "r" ≠ "https://maps.googleapis.com/user" := by
  decide

/-- C4 witness: the amended merge theorem instantiated on a fully
non-default record, whose url, coordinates and photoUrl survive the
merge. -/
theorem fillOnlyMergeAmended_witness :
    (mergePlace "K" locFull dEnrich).googleMapsUrl = locFull.googleMapsUrl ∧
    (mergePlace "K" locFull dEnrich).lat = locFull.lat ∧
    (mergePlace "K" locFull dEnrich).photoUrl = some "http://user" := by
  obtain ⟨-, -, -, -, hco, hurl, -, -, -, hph⟩ := fillOnlyMergeAmended "K" locFull dEnrich
  exact ⟨hurl (by decide) (by decide), (hco (by decide) (by decide)).1,
    hph "http://user" (by decide) (by decide) (by decide)⟩

lemma itinLe_trans : ∀ a b c : ItinItem, itinLe a b = true → itinLe b c = true →
    itinLe a c = true := by
  intro a b c h1 h2
  unfold itinLe at h1 h2 ⊢
  by_cases hab : a.day = b.day <;> by_cases hbc : b.day = c.day
  · have hac : a.day = c.day := by rw [hab, hbc]
    simp only [hab, hbc, hac, ne_eq, not_true_eq_false, if_false, ite_false,
      decide_eq_true_eq] at h1 h2 ⊢
    omega
  · have h2' : b.day.data < c.day.data := by simpa [hbc] using h2
    have hlt : a.day.data < c.day.data := hab ▸ h2'
    have hne : a.day ≠ c.day := fun e => absurd (congrArg String.data e) (ne_of_lt hlt)
    simp [hne, hlt]
  · have h1' : a.day.data < b.day.data := by simpa [hab] using h1
    have hlt : a.day.data < c.day.data := hbc ▸ h1'
    have hne : a.day ≠ c.day := fun e => absurd (congrArg String.data e) (ne_of_lt hlt)
    simp [hne, hlt]
  · have h1' : a.day.data < b.day.data := by simpa [hab] using h1
    have h2' : b.day.data < c.day.data := by simpa [hbc] using h2
    have hlt : a.day.data < c.day.data := lt_trans h1' h2'
    have hne : a.day ≠ c.day := fun e => absurd (congrArg String.data e) (ne_of_lt hlt)
    simp [hne, hlt]

lemma itinLe_total : ∀ a b : ItinItem, (itinLe a b || itinLe b a) = true := by
  intro a b
  unfold itinLe
  by_cases hab : a.day = b.day
  · rw [hab]
    rcases le_total a.order b.order with h | h <;> simp [h]
  · have hba : b.day ≠ a.day := fun e => hab e.symm
    have hdne : a.day.data ≠ b.day.data := fun e => hab (String.ext e)
    rcases lt_trichotomy a.day.data b.day.data with h | h | h
    · simp [hab, hba, h]
    · exact absurd h hdne
    · simp [hab, hba, h]

lemma insertItin_perm (a : ItinItem) : ∀ l : List ItinItem, (insertItin a l).Perm (a :: l) := by
  intro l
  induction l with
  | nil => rfl
  | cons b l ih =>
      unfold insertItin
      split
      · rfl
      · exact (List.Perm.cons b ih).trans (List.Perm.swap a b l)

lemma sortItinerary_perm (items : List ItinItem) : (sortItinerary items).Perm items := by
  induction items with
  | nil => rfl
  | cons a l ih =>
      unfold sortItinerary
      exact (insertItin_perm a (sortItinerary l)).trans (List.Perm.cons a ih)

lemma mem_insertItin (x a : ItinItem) (l : List ItinItem) :
    x ∈ insertItin a l ↔ x = a ∨ x ∈ l := by
  rw [(insertItin_perm a l).mem_iff]
  simp

lemma insertItin_sorted (a : ItinItem) : ∀ l : List ItinItem,
    List.Pairwise (fun x y => itinLe x y = true) l →
    List.Pairwise (fun x y => itinLe x y = true) (insertItin a l) := by
  intro l
  induction l with
  | nil =>
      intro _
      simp [insertItin]
  | cons b l ih =>
      intro hl
      unfold insertItin
      rcases List.pairwise_cons.1 hl with ⟨hb, hl2⟩
      split
      · rename_i hab
        refine List.pairwise_cons.2 ⟨?_, hl⟩
        intro x hx
        rcases List.mem_cons.1 hx with hx | hx
        · subst hx
          exact hab
        · exact itinLe_trans a b x hab (hb x hx)
      · rename_i hab
        refine List.pairwise_cons.2 ⟨?_, ih hl2⟩
        intro x hx
        rcases (mem_insertItin x a l).1 hx with hx | hx
        · have htot := itinLe_total a b
          simp only [Bool.or_eq_true] at htot
          rcases htot with h | h
          · exact absurd h hab
          · rw [hx]
            exact h
        · exact hb x hx

lemma sortItinerary_sorted (items : List ItinItem) :
    List.Pairwise (fun a b => itinLe a b = true) (sortItinerary items) := by
  induction items with
  | nil => exact List.Pairwise.nil
  | cons a l ih =>
      unfold sortItinerary
      exact insertItin_sorted a (sortItinerary l) ih

lemma updateItinerary_tab (items : List ItinItem) (ce : Option String) :
    updateItineraryInSheet true ce items =
      Except.ok ([ItinEffect.clearRange "Itinerary!A2:D"] ++
        (if ((sortItinerary items).map itinRowCells).length > 0 then
          [ItinEffect.updateRange
            ("Itinerary!A2:D" ++ toString (((sortItinerary items).map itinRowCells).length + 1))
            ((sortItinerary items).map itinRowCells)]
         else []) ++ [ItinEffect.cacheUpsert (sortItinerary items)]) := by
  unfold updateItineraryInSheet
  by_cases hl : 0 < (sortItinerary items).length <;> simp [hl]

lemma updateItinerary_create (items : List ItinItem) :
    updateItineraryInSheet false none items =
      Except.ok ([ItinEffect.addSheet "Itinerary",
        ItinEffect.updateRange "Itinerary!A1:D1" [itinHeader]] ++
        (if ((sortItinerary items).map itinRowCells).length > 0 then
          [ItinEffect.updateRange
            ("Itinerary!A2:D" ++ toString (((sortItinerary items).map itinRowCells).length + 1))
            ((sortItinerary items).map itinRowCells)]
         else []) ++ [ItinEffect.cacheUpsert (sortItinerary items)]) := by
  unfold updateItineraryInSheet
  by_cases hl : 0 < (sortItinerary items).length <;> simp [hl]

lemma updateItinerary_race (items : List ItinItem) (msg : String)
    (hs : hasSub msg "already exists" = true) :
    updateItineraryInSheet false (some msg) items =
      Except.ok ([ItinEffect.addSheet "Itinerary"] ++
        (if ((sortItinerary items).map itinRowCells).length > 0 then
          [ItinEffect.updateRange
            ("Itinerary!A2:D" ++ toString (((sortItinerary items).map itinRowCells).length + 1))
            ((sortItinerary items).map itinRowCells)]
         else []) ++ [ItinEffect.cacheUpsert (sortItinerary items)]) := by
  unfold updateItineraryInSheet
  by_cases hl : 0 < (sortItinerary items).length <;> simp [hs, hl]

lemma updateItinerary_fatal (items : List ItinItem) (msg : String)
    (hs : hasSub msg "already exists" = false) :
    updateItineraryInSheet false (some msg) items =
      Except.error "Failed to create Itinerary sheet" := by
  unfold updateItineraryInSheet
  simp [hs]

lemma applyItinEffects_cacheLast (l : List ItinEffect) (old : Option (List ItinItem))
    (d : List ItinItem) :
    applyItinEffects old (l ++ [ItinEffect.cacheUpsert d]) = some d := by
  unfold applyItinEffects
  rw [List.foldl_append]
  rfl

/-- C6: a completed itinerary rewrite publishes to the cache exactly the
incoming item list sorted by day (lexicographically) then order
(numerically), wholesale replacing whatever snapshot was cached before;
the published list is a sorted permutation of the input; and on an empty
input the existing data region is cleared (the header row untouched),
nothing but the header is ever range-written, and the cache becomes the
empty list. -/
theorem itineraryFullReplace (tab : Bool) (ce : Option String) (items : List ItinItem)
    (old : Option (List ItinItem)) (effs : List ItinEffect)
    (h : updateItineraryInSheet tab ce items = Except.ok effs) :
    applyItinEffects old effs = some (sortItinerary items) ∧
    List.Pairwise (fun a b => itinLe a b = true) (sortItinerary items) ∧
    (sortItinerary items).Perm items ∧
    (items = [] →
      applyItinEffects old effs = some [] ∧
      (tab = true → ItinEffect.clearRange "Itinerary!A2:D" ∈ effs) ∧
      ∀ r v, ItinEffect.updateRange r v ∈ effs → r = "Itinerary!A1:D1") := by
  have hsorted := sortItinerary_sorted items
  have hperm := sortItinerary_perm items
  cases tab with
  | true =>
      rw [updateItinerary_tab items ce] at h
      injection h with heq
      subst heq
      refine ⟨?_, hsorted, hperm, ?_⟩
      · exact applyItinEffects_cacheLast _ old _
      · intro hit
        subst hit
        refine ⟨?_, ?_, ?_⟩
        · rw [applyItinEffects_cacheLast _ old _]
          simp [sortItinerary]
        · intro _
          simp
        · intro r v hm
          simp [sortItinerary] at hm
  | false =>
      cases ce with
      | none =>
          rw [updateItinerary_create items] at h
          injection h with heq
          subst heq
          refine ⟨?_, hsorted, hperm, ?_⟩
          · exact applyItinEffects_cacheLast _ old _
          · intro hit
            subst hit
            refine ⟨?_, ?_, ?_⟩
            · rw [applyItinEffects_cacheLast _ old _]
              simp [sortItinerary]
            · intro htab
              simp at htab
            · intro r v hm
              simp [sortItinerary] at hm
              exact hm.1
      | some msg =>
          by_cases hs : hasSub msg "already exists" = true
          · rw [updateItinerary_race items msg hs] at h
            injection h with heq
            subst heq
            refine ⟨?_, hsorted, hperm, ?_⟩
            · exact applyItinEffects_cacheLast _ old _
            · intro hit
              subst hit
              refine ⟨?_, ?_, ?_⟩
              · rw [applyItinEffects_cacheLast _ old _]
                simp [sortItinerary]
              · intro htab
                simp at htab
              · intro r v hm
                simp [sortItinerary] at hm
          · rw [updateItinerary_fatal items msg (by simpa using hs)] at h
            simp at h

/-- Items passed to a concrete itinerary rewrite, unsorted on input. -/
def items6 : List ItinItem := [⟨"D2", "l2", 1, ""⟩, ⟨"D1", "l1", 0, ""⟩]

/-- Effect trace of that rewrite on an existing tab. -/
def effs6 : List ItinEffect :=
  [ItinEffect.clearRange "Itinerary!A2:D",
   ItinEffect.updateRange "Itinerary!A2:D3"
     [[CellValue.str "D1", CellValue.str "l1", CellValue.num 0, CellValue.str ""],
      [CellValue.str "D2", CellValue.str "l2", CellValue.num 1, CellValue.str ""]],
   ItinEffect.cacheUpsert [⟨"D1", "l1", 0, ""⟩, ⟨"D2", "l2", 1, ""⟩]]

deriving instance DecidableEq for Except

/-- C6 witness: the full-replace theorem instantiated on a concrete
two-item rewrite over an existing tab and an empty prior cache. -/
theorem itineraryFullReplace_witness :
    applyItinEffects none effs6 = some (sortItinerary items6) ∧
    List.Pairwise (fun a b => itinLe a b = true) (sortItinerary items6) ∧
    (sortItinerary items6).Perm items6 ∧
    (items6 = [] →
      applyItinEffects none effs6 = some [] ∧
      (true = true → ItinEffect.clearRange "Itinerary!A2:D" ∈ effs6) ∧
      ∀ r v, ItinEffect.updateRange r v ∈ effs6 → r = "Itinerary!A1:D1") :=
  itineraryFullReplace true none items6 none effs6 (by decide)

lemma updateItinerary_cacheMem (tab : Bool) (ce : Option String) (items : List ItinItem)
    (effs : List ItinEffect) (d : List ItinItem)
    (h : updateItineraryInSheet tab ce items = Except.ok effs)
    (hm : ItinEffect.cacheUpsert d ∈ effs) : d = sortItinerary items := by
  cases tab with
  | true =>
      rw [updateItinerary_tab items ce] at h
      injection h with heq
      subst heq
      by_cases hl : ((sortItinerary items).map itinRowCells).length > 0 <;>
        simp [hl] at hm <;> exact hm
  | false =>
      cases ce with
      | none =>
          rw [updateItinerary_create items] at h
          injection h with heq
          subst heq
          by_cases hl : ((sortItinerary items).map itinRowCells).length > 0 <;>
            simp [hl] at hm <;> exact hm
      | some msg =>
          by_cases hs : hasSub msg "already exists" = true
          · rw [updateItinerary_race items msg hs] at h
            injection h with heq
            subst heq
            by_cases hl : ((sortItinerary items).map itinRowCells).length > 0 <;>
              simp [hl] at hm <;> exact hm
          · rw [updateItinerary_fatal items msg (by simpa using hs)] at h
            simp at h

/-- Itinerary sheet rows out of day order. -/
def rowsOutOfOrder : List (List String) :=
  [["Day", "LocationID", "Order", "Notes"], ["b", "l1", "0", ""], ["a", "l2", "0", ""]]

/-- C7 counterexample: syncItinerary publishes the transform of the sheet
rows in sheet order, here with day b before day a, which the comparator
orders the other way, so the published list is not sorted; and
updateItineraryInSheet publishes an item whose locationId is empty,
unfiltered, so the published list is not restricted to non-empty
locationIds. Each publisher violates one half of the claimed invariant. -/
theorem itineraryInvariantsCex :
    syncItineraryData (some rowsOutOfOrder) =
      [⟨"b", "l1", 0, ""⟩, ⟨"a", "l2", 0, ""⟩] ∧
    itinLe ⟨"b", "l1", 0, ""⟩ ⟨"a", "l2", 0, ""⟩ = false ∧
    updateItineraryInSheet true none [⟨"Day 1", "", 0, ""⟩] =
      Except.ok [ItinEffect.clearRange "Itinerary!A2:D",
        ItinEffect.updateRange "Itinerary!A2:D2"
          [[CellValue.str "Day 1", CellValue.str "", CellValue.num 0, CellValue.str ""]],
        ItinEffect.cacheUpsert [⟨"Day 1", "", 0, ""⟩]] := by
  decide

/-- C7 (amended): the two publishers guarantee different halves of the
claimed invariant. Every item published by the locations-to-itinerary
transformation (hence by syncItinerary) has a non-empty locationId but
keeps sheet row order; every list published to the cache by a completed
updateItineraryInSheet is totally ordered by day then order but is not
filtered on locationId. -/
theorem itineraryInvariantsAmended :
    (∀ (rows? : Option (List (List String))) (it : ItinItem),
        it ∈ syncItineraryData rows? → it.locationId ≠ "") ∧
    (∀ (tab : Bool) (ce : Option String) (items : List ItinItem) (effs : List ItinEffect)
        (d : List ItinItem),
        updateItineraryInSheet tab ce items = Except.ok effs →
        ItinEffect.cacheUpsert d ∈ effs →
        List.Pairwise (fun a b => itinLe a b = true) d) := by
  constructor
  · intro rows? it hm
    cases rows? with
    | none => simp [syncItineraryData] at hm
    | some rows =>
        unfold syncItineraryData transformRowsToItinerary at hm
        exact of_decide_eq_true (List.mem_filter.1 hm).2
  · intro tab ce items effs d h hm
    rw [updateItinerary_cacheMem tab ce items effs d h hm]
    exact sortItinerary_sorted items

/-- C7 witness: both amended halves instantiated on concrete runs. -/
theorem itineraryInvariantsAmended_witness :
    (⟨"b", "l1", 0, ""⟩ : ItinItem).locationId ≠ "" ∧
    List.Pairwise (fun a b => itinLe a b = true) (sortItinerary items6) :=
  ⟨itineraryInvariantsAmended.1 (some rowsOutOfOrder) ⟨"b", "l1", 0, ""⟩ (by decide),
   itineraryInvariantsAmended.2 true none items6 effs6 (sortItinerary items6) (by decide)
     (by decide)⟩

/-- C8: a tab-creation failure during the itinerary rewrite whose error
message contains the already-exists signature is swallowed and the
invocation goes on to publish the sorted list to the cache, while a
creation failure without that signature aborts the invocation with the
fatal creation error. -/
theorem idempotentCreateRace (items : List ItinItem) (msg : String) :
    (hasSub msg "already exists" = true →
      ∃ effs, updateItineraryInSheet false (some msg) items = Except.ok effs ∧
        ItinEffect.cacheUpsert (sortItinerary items) ∈ effs) ∧
    (hasSub msg "already exists" = false →
      updateItineraryInSheet false (some msg) items =
        Except.error "Failed to create Itinerary sheet") := by
  constructor
  · intro hs
    refine ⟨_, updateItinerary_race items msg hs, ?_⟩
    simp
  · intro hs
    exact updateItinerary_fatal items msg hs

/-- C8 witness: a message carrying the signature is swallowed with the
cache still updated; a message without it aborts the invocation. -/
theorem idempotentCreateRace_witness :
    (∃ effs, updateItineraryInSheet false
        (some "A sheet with the name Itinerary already exists.") [] = Except.ok effs ∧
      ItinEffect.cacheUpsert (sortItinerary []) ∈ effs) ∧
    updateItineraryInSheet false (some "boom") [] =
      Except.error "Failed to create Itinerary sheet" :=
  ⟨(idempotentCreateRace [] "A sheet with the name Itinerary already exists.").1 (by decide),
   (idempotentCreateRace [] "boom").2 (by decide)⟩

/-- C1 witness: the amended conservation evaluated on the concrete
one-record sheet under the all-failures oracle, where the loop completes
and the single failed lookup accounts for the missing unit. -/
theorem budgetConservationAmended_witness :
    if anyOverFrom oracleNone 0 (min (totalSelected "K" rowsNoPhoto) 3) = true then
      (syncSheetToDb "K" oracleNone (some rowsNoPhoto)).result.updatedCount.getD 0 +
        (syncSheetToDb "K" oracleNone (some rowsNoPhoto)).result.remainingCount =
          totalSelected "K" rowsNoPhoto
    else
      (syncSheetToDb "K" oracleNone (some rowsNoPhoto)).result.updatedCount.getD 0 +
          (syncSheetToDb "K" oracleNone (some rowsNoPhoto)).result.remainingCount +
          failCountFrom oracleNone 0 (min (totalSelected "K" rowsNoPhoto) 3) =
        totalSelected "K" rowsNoPhoto :=
  budgetConservationAmended "K" oracleNone rowsNoPhoto

/-- C3 witness: the write-back discipline evaluated on the concrete
one-record sheet under the all-success oracle. -/
theorem batchWriteDiscipline_witness :
    batchWriteCount (syncSheetToDb "K" oracleHit (some rowsNoPhoto)).effects ≤ 1 ∧
    (batchWriteCount (syncSheetToDb "K" oracleHit (some rowsNoPhoto)).effects = 0 ↔
      (syncSheetToDb "K" oracleHit (some rowsNoPhoto)).result.updatedCount.getD 0 = 0) :=
  batchWriteDiscipline "K" oracleHit (some rowsNoPhoto)
